import Mathlib

/-!
Verification of the document ingestion-and-retrieval pipeline of the
AXA-Hackathon repository: the sliding-window chunker inlined in
`registerRoutes` (`server/routes.ts`), the retry-with-backoff utility and the
embedding client (`server/openai.ts`), the document-chunk schema
(`shared/schema.ts`), and the two chunk-store backends
(`DatabaseStorage` in `server/storage.ts` and `MemStorage` in
`server/memStorage.ts`).

Strings are modelled as `List Char`, JavaScript numbers used for similarity
scores as `Rat`, thrown exceptions as an `err` outcome carrying the message,
and `Math.random()` as an explicit stream `Nat → Rat` consumed one draw per
use, in order.
-/

set_option maxRecDepth 40000

/-- Whitespace test used by JavaScript `String.prototype.trim`: space, tab,
line feed, carriage return, vertical tab, form feed and no-break space (the
ASCII-range part of the JavaScript whitespace set, which is all the
repository's text handling can encounter in its own literals). -/
def isJsWhitespace (c : Char) : Bool :=
  c = ' ' || c = '\t' || c = '\n' || c = '\r' ||
  c = Char.ofNat 11 || c = Char.ofNat 12 || c = Char.ofNat 160

/-- Model of JavaScript `String.prototype.trim`: remove whitespace from both
ends of the string. -/
def jsTrim (s : List Char) : List Char :=
  ((s.dropWhile isJsWhitespace).reverse.dropWhile isJsWhitespace).reverse

/-- One element pushed onto `chunks` by the chunking loop in `registerRoutes`
(`server/routes.ts`): the slice `content.slice(i, i + chunkSize)` together
with `chunkIndex = Math.floor(i / (chunkSize - overlap))`. The `documentId`
field is omitted here because the loop gives every chunk the same one. -/
structure RouteChunk where
  content : List Char
  chunkIndex : Nat
deriving DecidableEq

/-- Fueled translation of the chunking loop in `registerRoutes`
(`server/routes.ts`):

```js
for (let i = 0; i < content.length; i += chunkSize - overlap) {
  const chunkContent = content.slice(i, i + chunkSize);
  if (chunkContent.trim()) {
    chunks.push({ documentId, content: chunkContent,
                  chunkIndex: Math.floor(i / (chunkSize - overlap)) });
  }
}
```

`none` means the fuel was exhausted before the loop condition
`i < content.length` became false, i.e. within the given number of iterations
the JavaScript loop has not terminated. -/
def chunkLoop (content : List Char) (chunkSize overlap : Nat) :
    Nat → Nat → Option (List RouteChunk)
  | fuel, i =>
    if i < content.length then
      match fuel with
      | 0 => none
      | f + 1 =>
        (chunkLoop content chunkSize overlap f (i + (chunkSize - overlap))).map
          (fun rest =>
            let chunkContent := (content.drop i).take chunkSize
            if (jsTrim chunkContent).isEmpty then rest
            else { content := chunkContent,
                   chunkIndex := i / (chunkSize - overlap) } :: rest)
    else some []

/-- Chunking of one document's content as performed by the upload and save
routes. The loop advances `i` by `chunkSize - overlap` each iteration, so when
`overlap < chunkSize` a fuel of `content.length` iterations always suffices;
the routes call this with `chunkSize = 1000`, `overlap = 200`. -/
def chunkDocument (content : List Char) (chunkSize overlap : Nat) :
    Option (List RouteChunk) :=
  chunkLoop content chunkSize overlap content.length 0

/-- Window starting at offset `k * (chunkSize - overlap)`, as sliced by the
`k`-th iteration of the chunking loop. -/
def windowAt (content : List Char) (chunkSize overlap k : Nat) : List Char :=
  (content.drop (k * (chunkSize - overlap))).take chunkSize

/-- Concatenation of the chunk contents after dropping the first `overlap`
characters of every chunk, used for the tail of the re-joined document. -/
def dropJoin (overlap : Nat) (l : List RouteChunk) : List Char :=
  (l.map (fun c => c.content.drop overlap)).flatten

/-- Re-joining of a chunk list: the first chunk is kept whole, every later
chunk contributes its content minus the first `overlap` characters. -/
def rejoinChunks (overlap : Nat) : List RouteChunk → List Char
  | [] => []
  | c :: rest => c.content ++ dropJoin overlap rest

/-- Outcome of one invocation of a fallible operation: a value, or a thrown
error identified by its message. -/
inductive RequestOutcome (α : Type) where
  | ok (value : α)
  | err (message : List Char)
deriving DecidableEq

/-- Substring match at the start: `listMatchesAt pat s` holds when `pat` is an
initial segment of `s`. Helper for the message classification below. -/
def listMatchesAt : List Char → List Char → Bool
  | [], _ => true
  | _ :: _, [] => false
  | a :: pa, b :: sb => a == b && listMatchesAt pa sb

/-- Model of JavaScript `String.prototype.includes`: `pat` occurs contiguously
somewhere in the second argument. -/
def listContainsSub (pat : List Char) : List Char → Bool
  | [] => listMatchesAt pat []
  | b :: rest => listMatchesAt pat (b :: rest) || listContainsSub pat rest

/-- Message classification in `retryWithBackoff` (`server/openai.ts`): errors
whose lower-cased message contains one of these substrings are never
retried. -/
def nonRetryableMessage (message : List Char) : Bool :=
  let m := message.map Char.toLower
  listContainsSub "invalid api key".toList m ||
  listContainsSub "authentication".toList m ||
  listContainsSub "text too long".toList m ||
  listContainsSub "maximum".toList m ||
  listContainsSub "validation".toList m

/-- Observable outcome of `retryWithBackoff`: the returned value or thrown
error, the number of times the wrapped operation was invoked, and the total
time spent sleeping between attempts. -/
structure RetryRes (α : Type) where
  result : RequestOutcome α
  invocations : Nat
  totalDelay : Nat
deriving DecidableEq

/-- Loop body of `retryWithBackoff` (`server/openai.ts`). The wrapped
operation is modelled as a function from the attempt number to its outcome;
`remaining = maxRetries - attempt` counts the attempts still allowed after the
current one. On the final attempt a non-retryable error and an exhausted
retryable error propagate identically (`throw error` vs `break; throw
lastError` in the source, with `lastError` the same error). -/
def retryGo {α : Type} (fn : Nat → RequestOutcome α) (baseDelay attempt : Nat) :
    Nat → RetryRes α
  | 0 =>
    match fn attempt with
    | .ok v => ⟨.ok v, 1, 0⟩
    | .err m => ⟨.err m, 1, 0⟩
  | remaining + 1 =>
    match fn attempt with
    | .ok v => ⟨.ok v, 1, 0⟩
    | .err m =>
      if nonRetryableMessage m then ⟨.err m, 1, 0⟩
      else
        let rest := retryGo fn baseDelay (attempt + 1) remaining
        ⟨rest.result, rest.invocations + 1, rest.totalDelay + baseDelay * 2 ^ attempt⟩

/-- Model of `retryWithBackoff` (`server/openai.ts`): attempts run for
`attempt = 0, …, maxRetries`; before re-attempting, the loop sleeps for
`baseDelay * 2 ^ attempt` milliseconds. -/
def retryWithBackoff {α : Type} (fn : Nat → RequestOutcome α)
    (maxRetries baseDelay : Nat) : RetryRes α :=
  retryGo fn baseDelay 0 maxRetries

/-- Result of one embedding call, as returned by `generateEmbedding`
(`server/openai.ts`): the vector and a token count. Vector components are
modelled as rationals. -/
structure EmbeddingResult where
  embedding : List Rat
  tokenCount : Nat
deriving DecidableEq

/-- Dimension of the `embedding` column of `document_chunks` declared in
`shared/schema.ts`: `vector("embedding", { dimensions: 384 })`. -/
def embeddingDimensions : Nat := 384

/-- Model of the mock `generateEmbedding` of `server/memStorage`-era
`openai.ts` (the in-repo placeholder implementation): it ignores the service
and returns `Array(1536).fill(0).map(() => Math.random() * 0.1 - 0.05)`
together with `Math.floor(text.length / 4)` as token count. The random draws
are the explicit stream `rng`. -/
def mockGenerateEmbedding (rng : Nat → Rat) (text : List Char) : EmbeddingResult :=
  { embedding := (List.range 1536).map (fun k => rng k * (1/10) - 1/20),
    tokenCount := text.length / 4 }

/-- Model of the guarded `generateEmbedding` (`server/openai.ts`): after the
API-key check, the trimmed text is rejected when longer than 8000 characters;
otherwise the embedding request runs under `retryWithBackoff` with
`maxRetries = 3`, `baseDelay = 1000`, and a failure that survives the retries
is re-thrown with a `Failed to generate embedding:` prefix. The pair's second
component counts invocations of the underlying service. -/
def generateEmbedding (apiKeyPresent : Bool)
    (service : Nat → RequestOutcome EmbeddingResult) (text : List Char) :
    RequestOutcome EmbeddingResult × Nat :=
  if apiKeyPresent = false then
    (.err "OPENAI_API_KEY environment variable is required".toList, 0)
  else
    let trimmedText := jsTrim text
    if 8000 < trimmedText.length then
      (.err "Text too long for embedding generation. Maximum 8000 characters allowed.".toList, 0)
    else
      let r := retryWithBackoff service 3 1000
      match r.result with
      | .ok v => (.ok v, r.invocations)
      | .err m => (.err ("Failed to generate embedding: ".toList ++ m), r.invocations)

/-- Model of the guarded `generateBatchEmbeddings` (`server/openai.ts`): an
empty batch short-circuits, then the API-key check, then the batch-size guard
(at most 100 texts), then the per-text length guard thrown while trimming,
and only then the retried service call. -/
def generateBatchEmbeddings (apiKeyPresent : Bool)
    (service : Nat → RequestOutcome (List EmbeddingResult))
    (texts : List (List Char)) : RequestOutcome (List EmbeddingResult) × Nat :=
  if texts.length = 0 then (.ok [], 0)
  else if apiKeyPresent = false then
    (.err "OPENAI_API_KEY environment variable is required".toList, 0)
  else if 100 < texts.length then
    (.err "Too many texts for batch embedding. Maximum 100 texts allowed.".toList, 0)
  else if texts.any (fun t => 8000 < (jsTrim t).length) then
    (.err "Text too long for embedding generation. Maximum 8000 characters per text.".toList, 0)
  else
    let r := retryWithBackoff service 3 1000
    match r.result with
    | .ok v => (.ok v, r.invocations)
    | .err m => (.err ("Failed to generate batch embeddings: ".toList ++ m), r.invocations)

/-- Document row as stored by either backend; ids are modelled as naturals. -/
structure StoredDocument where
  id : Nat
  title : List Char
  docType : List Char
  fileName : List Char
  content : List Char
deriving DecidableEq

/-- Chunk value as held by `MemStorage`: an id generated at insertion time,
the owning document, content, index and optional embedding. -/
structure DocumentChunk where
  id : Nat
  documentId : Nat
  content : List Char
  chunkIndex : Nat
  embedding : Option (List Rat)
deriving DecidableEq

/-- Chunk data without the generated id: this is both the shape of an
`InsertDocumentChunk` enriched with its (absent) embedding and the
id-independent part of a stored chunk. -/
structure ChunkRecord where
  documentId : Nat
  content : List Char
  chunkIndex : Nat
  embedding : Option (List Rat)
deriving DecidableEq

/-- Insert payload for one chunk (`insertDocumentChunkSchema` of
`shared/schema.ts`): document, content and index. -/
structure InsertDocumentChunk where
  documentId : Nat
  content : List Char
  chunkIndex : Nat
deriving DecidableEq

/-- Id-independent view of a stored chunk. -/
def DocumentChunk.record (c : DocumentChunk) : ChunkRecord :=
  ⟨c.documentId, c.content, c.chunkIndex, c.embedding⟩

/-- Chunk record created from an insert payload with no embedding attached. -/
def InsertDocumentChunk.withoutEmbedding (ic : InsertDocumentChunk) : ChunkRecord :=
  ⟨ic.documentId, ic.content, ic.chunkIndex, none⟩

/-- Lookup in an insertion-ordered association list, as JavaScript `Map.get`. -/
def mapGet {α : Type} : List (Nat × α) → Nat → Option α
  | [], _ => none
  | (k', v') :: rest, k => if k' = k then some v' else mapGet rest k

/-- Update of an insertion-ordered association list, as JavaScript `Map.set`:
an existing key keeps its position, a new key is appended. -/
def mapSet {α : Type} : List (Nat × α) → Nat → α → List (Nat × α)
  | [], k, v => [(k, v)]
  | (k', v') :: rest, k, v =>
    if k' = k then (k, v) :: rest else (k', v') :: mapSet rest k v

/-- State of `MemStorage` (`server/memStorage.ts`) restricted to the pipeline:
the id counter replacing `generateId()`, the `documents` map and the
`documentChunks` map (document id to that document's chunk array). Both maps
are insertion-ordered, as JavaScript `Map`s are. -/
structure MemState where
  nextId : Nat
  documents : List (Nat × StoredDocument)
  documentChunks : List (Nat × List DocumentChunk)
deriving DecidableEq

/-- Chunk array held for one document, `this.documentChunks.get(id) || []`. -/
def MemState.bucket (s : MemState) (documentId : Nat) : List DocumentChunk :=
  (mapGet s.documentChunks documentId).getD []

/-- Model of `MemStorage.createDocumentChunk`: build the chunk with a fresh id
and a `null` embedding, and push it onto its document's array. -/
def memCreateDocumentChunk (s : MemState) (ic : InsertDocumentChunk) :
    DocumentChunk × MemState :=
  let chunk : DocumentChunk := ⟨s.nextId, ic.documentId, ic.content, ic.chunkIndex, none⟩
  (chunk,
   { s with
     nextId := s.nextId + 1,
     documentChunks :=
       mapSet s.documentChunks ic.documentId (s.bucket ic.documentId ++ [chunk]) })

/-- Model of `MemStorage.createDocumentChunksWithEmbeddings`: the in-memory
backend creates every chunk without an embedding, one `createDocumentChunk`
call per input, in order. -/
def memCreateDocumentChunksWithEmbeddings (s : MemState) :
    List InsertDocumentChunk → List DocumentChunk × MemState
  | [] => ([], s)
  | ic :: rest =>
    let (c, s1) := memCreateDocumentChunk s ic
    let (cs, s2) := memCreateDocumentChunksWithEmbeddings s1 rest
    (c :: cs, s2)

/-- Ordering used by both backends when listing a document's chunks. -/
def chunkIndexLe (a b : DocumentChunk) : Prop := a.chunkIndex ≤ b.chunkIndex

instance : DecidableRel chunkIndexLe := fun a b => Nat.decLe a.chunkIndex b.chunkIndex

/-- Model of `MemStorage.getDocumentChunks`: the document's chunk array sorted
by ascending `chunkIndex` (a stable sort, as JavaScript `Array.sort`). -/
def memGetDocumentChunks (s : MemState) (documentId : Nat) : List DocumentChunk :=
  List.insertionSort chunkIndexLe (s.bucket documentId)

/-- Flattening of all chunk arrays in map-insertion order, as the
`for (const chunks of this.documentChunks.values())` accumulation loops in
`MemStorage`. -/
def memAllChunks (s : MemState) : List DocumentChunk :=
  (s.documentChunks.map (fun p => p.2)).flatten

/-- One search result of `MemStorage.searchDocumentChunksByVector`: the chunk
spread together with a similarity score and the owning document, if found. -/
structure MemSearchResult where
  chunk : DocumentChunk
  similarity : Rat
  document : Option StoredDocument
deriving DecidableEq

/-- Result-building loop of `MemStorage.searchDocumentChunksByVector`: for each
of the first chunks one random draw `Math.random() * 0.5 + 0.5` is attached as
similarity, together with `this.documents.get(chunk.documentId)`; `j` is the
index of the next random draw. -/
def memSearchGo (s : MemState) (rng : Nat → Rat) :
    Nat → List DocumentChunk → List MemSearchResult
  | _, [] => []
  | j, c :: rest =>
    { chunk := c, similarity := rng j * (1/2) + 1/2,
      document := mapGet s.documents c.documentId } :: memSearchGo s rng (j + 1) rest

/-- Model of `MemStorage.searchDocumentChunksByVector`: the query embedding is
never read; the first `limit` stored chunks (in map-insertion order) are
returned with random similarity scores. -/
def memSearchDocumentChunksByVector (s : MemState) (queryEmbedding : List Rat)
    (limit : Nat) (rng : Nat → Rat) : List MemSearchResult :=
  memSearchGo s rng 0 ((memAllChunks s).take limit)

/-- Row of the `document_chunks` table as touched by
`DatabaseStorage.createDocumentChunksWithEmbeddings`; the database-generated
id is not modelled. -/
def DbChunkRow : Type := ChunkRecord

/-- Model of `DatabaseStorage.createDocumentChunksWithEmbeddings`
(`server/storage.ts`): an empty input inserts nothing; otherwise the texts are
embedded in one batch call and the chunks are inserted with their embeddings,
and if the batch call throws, the chunks are inserted as given, i.e. with no
embedding (`catch` fallback). -/
def dbCreateDocumentChunksWithEmbeddings
    (embedBatch : List (List Char) → RequestOutcome (List EmbeddingResult))
    (table : List ChunkRecord) (chunks : List InsertDocumentChunk) :
    List ChunkRecord :=
  if chunks.length = 0 then table
  else
    match embedBatch (chunks.map (fun c => c.content)) with
    | .ok embeddings =>
      table ++ List.zipWith
        (fun (c : InsertDocumentChunk) (e : EmbeddingResult) =>
          (⟨c.documentId, c.content, c.chunkIndex, some e.embedding⟩ : ChunkRecord))
        chunks embeddings
    | .err _ => table ++ chunks.map InsertDocumentChunk.withoutEmbedding

/-- Ordering used by `DatabaseStorage.getDocumentChunks`' `orderBy`. -/
def recordIndexLe (a b : ChunkRecord) : Prop := a.chunkIndex ≤ b.chunkIndex

instance : DecidableRel recordIndexLe := fun a b => Nat.decLe a.chunkIndex b.chunkIndex

/-- Model of `DatabaseStorage.getDocumentChunks`: the rows of the document,
ordered by ascending `chunk_index`. -/
def dbGetDocumentChunks (table : List ChunkRecord) (documentId : Nat) :
    List ChunkRecord :=
  List.insertionSort recordIndexLe
    (table.filter (fun r => r.documentId = documentId))

/-- Embedded chunk row joined with its parent document, an intermediate of the
vector-search query. -/
structure JoinedRow where
  row : ChunkRecord
  vec : List Rat
  doc : StoredDocument
deriving DecidableEq

/-- Search result shape of `DatabaseStorage.searchDocumentChunksByVector`. -/
structure DbSearchResult where
  row : ChunkRecord
  similarity : Rat
  document : StoredDocument
deriving DecidableEq

/-- Ordering of the `ORDER BY dc.embedding <=> query` clause: ascending
distance of the row's embedding to the query embedding. -/
def distLe (dist : List Rat → List Rat → Rat) (queryEmbedding : List Rat)
    (a b : JoinedRow) : Prop :=
  dist a.vec queryEmbedding ≤ dist b.vec queryEmbedding

instance (dist : List Rat → List Rat → Rat) (q : List Rat) :
    DecidableRel (distLe dist q) :=
  fun a b => inferInstanceAs (Decidable (dist a.vec q ≤ dist b.vec q))

/-- Model of the SQL query in `DatabaseStorage.searchDocumentChunksByVector`:
keep the chunk rows whose embedding is set and whose document exists (the
`WHERE dc.embedding IS NOT NULL` filter and the `INNER JOIN documents`), order
them by ascending pgvector distance `dc.embedding <=> query` — the distance
operator is a parameter `dist` of the model — take `limit` rows, and report
`1 - distance` as the similarity. -/
def dbSearchDocumentChunksByVector (dist : List Rat → List Rat → Rat)
    (table : List ChunkRecord) (docs : List (Nat × StoredDocument))
    (queryEmbedding : List Rat) (limit : Nat) : List DbSearchResult :=
  let joined : List JoinedRow := table.filterMap (fun r =>
    match r.embedding with
    | none => none
    | some e => (mapGet docs r.documentId).map (fun d => ⟨r, e, d⟩))
  let sorted := List.insertionSort (distLe dist queryEmbedding) joined
  (sorted.take limit).map (fun p =>
    { row := p.row, similarity := 1 - dist p.vec queryEmbedding, document := p.doc })

/-- Document used by the concrete in-memory store states below. -/
def cexDoc : StoredDocument :=
  ⟨1, "handbook".toList, "manual".toList, "handbook.txt".toList,
   "remote work eligibility requires six months tenure".toList⟩

/-- First stored chunk of the concrete store states. -/
def cexChunkA : DocumentChunk :=
  ⟨10, 1, "remote work eligibility".toList, 0, none⟩

/-- Second stored chunk of the concrete store states. -/
def cexChunkB : DocumentChunk :=
  ⟨11, 1, "requires six months tenure".toList, 1, none⟩

/-- Concrete `MemStorage` state with one document owning two chunks. -/
def cexMemState : MemState :=
  ⟨12, [(1, cexDoc)], [(1, [cexChunkA, cexChunkB])]⟩

/-- Random stream whose first draw is 0 and whose later draws are 4/5. -/
def cexRng : Nat → Rat := fun j => if j = 0 then 0 else 4/5

/-- Random stream that always draws 0. -/
def cexRngA : Nat → Rat := fun _ => 0

/-- Random stream that always draws 1/2. -/
def cexRngB : Nat → Rat := fun _ => 1/2

/-- Trimming a string with no whitespace characters leaves it unchanged. -/
theorem jsTrim_eq_self : ∀ (l : List Char), (∀ c ∈ l, isJsWhitespace c = false) → jsTrim l = l := by
  intro l h
  have h1 : l.dropWhile isJsWhitespace = l := by
    cases l with
    | nil => rfl
    | cons a t => rw [List.dropWhile_cons]; simp [h a (by simp)]
  rw [jsTrim, h1]
  have h2 : l.reverse.dropWhile isJsWhitespace = l.reverse := by
    cases hr : l.reverse with
    | nil => rfl
    | cons a t =>
      have ha : a ∈ l := by
        have ha' : a ∈ l.reverse := by rw [hr]; simp
        simpa using ha'
      rw [List.dropWhile_cons]; simp [h a ha]
  rw [h2, List.reverse_reverse]

/-- C3: `retryWithBackoff` retries a transiently-failing operation with
exponential backoff. An operation `f` that fails with retryable errors on
attempts 0 and 1 and succeeds on attempt 2, run with `maxRetries = 3`,
succeeds after exactly 3 invocations and has slept at least
`baseDelay + 2 * baseDelay`; an operation `g` whose first error is classified
non-retryable is invoked exactly once and its error propagates with no
sleep. -/
theorem retryWithBackoff_retry_semantics {α : Type} (f g : Nat → RequestOutcome α)
    (v : α) (m0 m1 mp : List Char) (baseDelay : Nat)
    (hf0 : f 0 = .err m0) (hm0 : nonRetryableMessage m0 = false)
    (hf1 : f 1 = .err m1) (hm1 : nonRetryableMessage m1 = false)
    (hf2 : f 2 = .ok v)
    (hg0 : g 0 = .err mp) (hmp : nonRetryableMessage mp = true) :
    ((retryWithBackoff f 3 baseDelay).result = .ok v ∧
      (retryWithBackoff f 3 baseDelay).invocations = 3 ∧
      baseDelay + 2 * baseDelay ≤ (retryWithBackoff f 3 baseDelay).totalDelay) ∧
    retryWithBackoff g 3 baseDelay = ⟨.err mp, 1, 0⟩ := by
  constructor
  · have hF : retryWithBackoff f 3 baseDelay =
        ⟨.ok v, 3, baseDelay * 2 ^ 1 + baseDelay * 2 ^ 0⟩ := by
      simp [retryWithBackoff, retryGo, hf0, hf1, hf2, hm0, hm1]
    rw [hF]
    refine ⟨rfl, rfl, ?_⟩
    simp only [pow_zero, pow_one]
    omega
  · simp [retryWithBackoff, retryGo, hg0, hmp]

/-- C3 witness: a concrete operation failing with "timeout" then "rate limit"
then succeeding, and a concrete operation failing with a validation error. -/
theorem retryWithBackoff_retry_semantics_witness :
    ((retryWithBackoff
        (fun n => if n = 0 then .err "timeout".toList
                  else if n = 1 then .err "rate limit".toList else .ok 42) 3 1000).result =
      .ok 42 ∧
      (retryWithBackoff
        (fun n => if n = 0 then .err "timeout".toList
                  else if n = 1 then .err "rate limit".toList else .ok 42) 3 1000).invocations = 3 ∧
      1000 + 2 * 1000 ≤
        (retryWithBackoff
          (fun n => if n = 0 then .err "timeout".toList
                    else if n = 1 then .err "rate limit".toList else .ok 42) 3 1000).totalDelay) ∧
    retryWithBackoff (fun _ => (.err "request validation failed".toList : RequestOutcome Nat)) 3 1000 =
      ⟨.err "request validation failed".toList, 1, 0⟩ :=
  retryWithBackoff_retry_semantics
    (fun n => if n = 0 then .err "timeout".toList
              else if n = 1 then .err "rate limit".toList else .ok 42)
    (fun _ => (.err "request validation failed".toList : RequestOutcome Nat))
    42 "timeout".toList "rate limit".toList "request validation failed".toList 1000
    (by decide) (by decide) (by decide) (by decide) (by decide) (by decide) (by decide)

/-- C6: the schema of `document_chunks` declares embeddings of dimension 384,
but the repository's embedding generator returns vectors of length 1536
(`Array(1536)` in the mock, matching `text-embedding-3-small`), so no vector
it produces has the declared dimension. -/
theorem mockEmbedding_dimension_mismatch (rng : Nat → Rat) (text : List Char) :
    (mockGenerateEmbedding rng text).embedding.length = 1536 ∧
    embeddingDimensions = 384 ∧
    (mockGenerateEmbedding rng text).embedding.length ≠ embeddingDimensions := by
  refine ⟨?_, rfl, ?_⟩ <;> simp [mockGenerateEmbedding, embeddingDimensions]

/-- C8 (amended): the chunking code performs no configuration validation; with
`overlap ≥ windowSize` (and non-empty text) the loop never makes progress, so
it never terminates — the fueled model reports fuel exhaustion for every
amount of fuel — instead of failing with a `ConfigurationError`. -/
theorem chunkLoop_overlap_ge_window_no_progress (content : List Char)
    (chunkSize overlap : Nat) (hWO : chunkSize ≤ overlap) (hne : content ≠ []) :
    ∀ fuel, chunkLoop content chunkSize overlap fuel 0 = none := by
  have hlen : 0 < content.length := List.length_pos.mpr hne
  have hstep : chunkSize - overlap = 0 := Nat.sub_eq_zero_of_le hWO
  intro fuel
  induction fuel with
  | zero => simp [chunkLoop, hlen]
  | succ f ih => rw [chunkLoop]; simp [hlen, hstep, ih]

/-- C8 witness: with `windowSize = overlap = 1` on the text `"a"`, the loop is
still running after 5 iterations (and, by the theorem, after any number). -/
theorem chunkLoop_overlap_ge_window_no_progress_witness :
    chunkLoop "a".toList 1 1 5 0 = none :=
  chunkLoop_overlap_ge_window_no_progress "a".toList 1 1 (by decide) (by decide) 5

/-- C8 counterexample: with `overlap = windowSize = 1` on `"ab"` the chunking
does not produce zero chunks and raises no `ConfigurationError` (no error
value exists in the code); it simply never finishes. -/
theorem chunk_overlap_ge_window_counterexample :
    chunkDocument "ab".toList 1 1 = none ∧
    chunkDocument "ab".toList 1 1 ≠ some [] := by
  constructor
  · decide
  · decide

/-- C9: an over-long single text (more than 8000 characters after trimming)
makes `generateEmbedding` fail with the validation error without ever invoking
the embedding service, and a batch of more than 100 texts makes
`generateBatchEmbeddings` fail with the validation error without ever invoking
the service. -/
theorem embedding_validation_no_retry
    (service : Nat → RequestOutcome EmbeddingResult)
    (serviceB : Nat → RequestOutcome (List EmbeddingResult))
    (text : List Char) (texts : List (List Char))
    (hLong : 8000 < (jsTrim text).length) (hMany : 100 < texts.length) :
    generateEmbedding true service text =
      (.err "Text too long for embedding generation. Maximum 8000 characters allowed.".toList, 0) ∧
    generateBatchEmbeddings true serviceB texts =
      (.err "Too many texts for batch embedding. Maximum 100 texts allowed.".toList, 0) := by
  constructor
  · simp [generateEmbedding, hLong]
  · have h0 : ¬ texts.length = 0 := by omega
    simp [generateBatchEmbeddings, h0, hMany]

/-- C9 witness: a single text of 8001 characters, and a batch of 101 texts. -/
theorem embedding_validation_no_retry_witness :
    generateEmbedding true (fun _ => .err []) (List.replicate 8001 'a') =
      (.err "Text too long for embedding generation. Maximum 8000 characters allowed.".toList, 0) ∧
    generateBatchEmbeddings true (fun _ => .err []) (List.replicate 101 ['a']) =
      (.err "Too many texts for batch embedding. Maximum 100 texts allowed.".toList, 0) :=
  embedding_validation_no_retry (fun _ => .err []) (fun _ => .err [])
    (List.replicate 8001 'a') (List.replicate 101 ['a'])
    (by
      rw [jsTrim_eq_self _ (fun c hc => by rw [List.eq_of_mem_replicate hc]; decide)]
      rw [List.length_replicate]
      omega)
    (by rw [List.length_replicate]; omega)

/-- Unfolding of the chunking loop when the loop condition fails. -/
theorem chunkLoop_stop (content : List Char) (chunkSize overlap fuel i : Nat)
    (h : ¬ i < content.length) :
    chunkLoop content chunkSize overlap fuel i = some [] := by
  cases fuel <;> simp [chunkLoop, h]

/-- Unfolding of one iteration of the chunking loop. -/
theorem chunkLoop_succ (content : List Char) (chunkSize overlap f i : Nat)
    (h : i < content.length) :
    chunkLoop content chunkSize overlap (f + 1) i =
      (chunkLoop content chunkSize overlap f (i + (chunkSize - overlap))).map
        (fun rest =>
          if (jsTrim ((content.drop i).take chunkSize)).isEmpty then rest
          else { content := (content.drop i).take chunkSize,
                 chunkIndex := i / (chunkSize - overlap) } :: rest) := by
  rw [chunkLoop]
  simp [h]

/-- Round-up division is at most `k` when `len` is at most `k` steps. -/
theorem ceilDiv_le_of_le {len step k : Nat} (hstep : 0 < step) (h : len ≤ k * step) :
    (len + step - 1) / step ≤ k := by
  have h2 : (len + step - 1) / step < k + 1 := by
    rw [Nat.div_lt_iff_lt_mul hstep]
    have h3 : (k + 1) * step = k * step + step := by ring
    omega
  omega

/-- Round-up division exceeds `k` when `k` steps stay below `len`. -/
theorem lt_ceilDiv_of_lt {len step k : Nat} (hstep : 0 < step) (h : k * step < len) :
    k < (len + step - 1) / step := by
  have h2 : k + 1 ≤ (len + step - 1) / step := by
    rw [Nat.le_div_iff_mul_le hstep]
    have h3 : (k + 1) * step = k * step + step := by ring
    omega
  omega

/-- Characterization of the chunking loop from iteration `k` onwards, under
the precondition `overlap < chunkSize` and assuming no window is blank: the
remaining iterations emit exactly the windows `k, k+1, …` up to the round-up
count, with `chunkIndex` equal to the iteration number. -/
theorem chunkLoop_eq_windows (content : List Char) (chunkSize overlap : Nat)
    (hOW : overlap < chunkSize)
    (hnb : ∀ k, k * (chunkSize - overlap) < content.length →
      (jsTrim (windowAt content chunkSize overlap k)).isEmpty = false) :
    ∀ fuel k, content.length - k * (chunkSize - overlap) ≤ fuel →
      chunkLoop content chunkSize overlap fuel (k * (chunkSize - overlap)) =
        some ((List.range
            ((content.length + (chunkSize - overlap) - 1) / (chunkSize - overlap) - k)).map
          (fun j => ⟨windowAt content chunkSize overlap (k + j), k + j⟩)) := by
  have hstep : 0 < chunkSize - overlap := by omega
  simp only [windowAt] at hnb ⊢
  intro fuel
  induction fuel with
  | zero =>
    intro k hk
    have hge : content.length ≤ k * (chunkSize - overlap) := by omega
    rw [chunkLoop_stop _ _ _ _ _ (by omega)]
    have hc : (content.length + (chunkSize - overlap) - 1) / (chunkSize - overlap) - k = 0 := by
      have := ceilDiv_le_of_le hstep hge
      omega
    rw [hc]
    rfl
  | succ f ih =>
    intro k hk
    by_cases hik : k * (chunkSize - overlap) < content.length
    · rw [chunkLoop_succ _ _ _ _ _ hik]
      have harg : k * (chunkSize - overlap) + (chunkSize - overlap)
          = (k + 1) * (chunkSize - overlap) := by ring
      rw [harg, ih (k + 1) (by
        have h3 : (k + 1) * (chunkSize - overlap)
            = k * (chunkSize - overlap) + (chunkSize - overlap) := by ring
        omega)]
      rw [Option.map_some']
      have hkc : k < (content.length + (chunkSize - overlap) - 1) / (chunkSize - overlap) :=
        lt_ceilDiv_of_lt hstep hik
      have hsub : (content.length + (chunkSize - overlap) - 1) / (chunkSize - overlap) - k
          = ((content.length + (chunkSize - overlap) - 1) / (chunkSize - overlap) - (k + 1))
            + 1 := by omega
      rw [hsub, List.range_succ_eq_map, hnb k hik]
      simp only [Bool.false_eq_true, if_false, List.map_cons, List.map_map]
      refine congrArg some (congrArg₂ List.cons ?_ ?_)
      · rw [Nat.mul_div_cancel _ hstep]
        simp
      · apply List.map_congr_left
        intro j hj
        have hadd : (k + 1) + j = k + (j + 1) := by omega
        simp [Function.comp, Nat.succ_eq_add_one, hadd]
    · rw [chunkLoop_stop _ _ _ _ _ hik]
      have hge : content.length ≤ k * (chunkSize - overlap) := by omega
      have hc : (content.length + (chunkSize - overlap) - 1) / (chunkSize - overlap) - k = 0 := by
        have := ceilDiv_le_of_le hstep hge
        omega
      rw [hc]
      rfl

/-- C1 (amended): for `0 ≤ overlap < windowSize`, on any text none of whose
windows is whitespace-only, the loop produces exactly
`ceil(len(text) / (windowSize - overlap))` chunks — not
`ceil(max(0, len(text) - overlap) / (windowSize - overlap))` — the `k`-th
being the window at offset `k * (windowSize - overlap)` with `chunkIndex = k`.
In particular a text of length 2500 with `windowSize = 1000, overlap = 200`
yields 4 chunks at indices 0, 1, 2, 3 (the last covering offsets
[2400, 2500)), and an empty text yields 0 chunks. -/
theorem chunkDocument_count (content : List Char) (chunkSize overlap : Nat)
    (hOW : overlap < chunkSize)
    (hnb : ∀ k, k * (chunkSize - overlap) < content.length →
      (jsTrim (windowAt content chunkSize overlap k)).isEmpty = false) :
    chunkDocument content chunkSize overlap =
      some ((List.range
          ((content.length + (chunkSize - overlap) - 1) / (chunkSize - overlap))).map
        (fun k => ⟨windowAt content chunkSize overlap k, k⟩)) := by
  have h := chunkLoop_eq_windows content chunkSize overlap hOW hnb content.length 0 (by omega)
  simp only [Nat.zero_mul, Nat.zero_add, Nat.sub_zero] at h
  simp only [chunkDocument, windowAt]
  exact h

/-- C1 counterexample: scenario A scaled by 1/100 (text length 25,
`windowSize = 10`, `overlap = 2`, step 8 — the same configuration shape as
length 2500 with window 1000 and overlap 200, step 800). The claimed formula
`ceil(max(0, 25 - 2) / 8) = 3` predicts chunks at indices 0, 1, 2, but the
loop runs while `i < 25` over `i = 0, 8, 16, 24` and produces four chunks at
indices 0, 1, 2, 3. -/
theorem chunkDocument_count_counterexample :
    (chunkDocument (List.replicate 25 'a') 10 2).map
        (fun l => l.map RouteChunk.chunkIndex) = some [0, 1, 2, 3] ∧
    (chunkDocument (List.replicate 25 'a') 10 2).map
        (fun l => l.map RouteChunk.chunkIndex) ≠ some [0, 1, 2] := by
  have h : (chunkDocument (List.replicate 25 'a') 10 2).map
      (fun l => l.map RouteChunk.chunkIndex) = some [0, 1, 2, 3] := by decide
  exact ⟨h, by rw [h]; decide⟩

/-- C1 witness: the five-character text `"abcde"` with window 2 and overlap 1
has `ceil(5 / 1) = 5` chunks, the `k`-th being the window at offset `k`. -/
theorem chunkDocument_count_witness :
    chunkDocument "abcde".toList 2 1 =
      some ((List.range (("abcde".toList.length + (2 - 1) - 1) / (2 - 1))).map
        (fun k => ⟨windowAt "abcde".toList 2 1 k, k⟩)) :=
  chunkDocument_count "abcde".toList 2 1 (by decide)
    (fun k hk => by
      have h5 : ("abcde".toList).length = 5 := by decide
      rw [h5] at hk
      have hk5 : k < 5 := by omega
      interval_cases k <;> decide)

/-- Unfolding of `dropJoin` on a cons cell. -/
theorem dropJoin_cons (o : Nat) (c : RouteChunk) (rest : List RouteChunk) :
    dropJoin o (c :: rest) = c.content.drop o ++ dropJoin o rest := by
  simp [dropJoin]

/-- Splitting of a drop at offset `a` into a take of `b` and a drop at
`a + b`. -/
theorem take_append_drop_offset (l : List Char) (a b : Nat) :
    (l.drop a).take b ++ l.drop (a + b) = l.drop a := by
  have h := List.take_append_drop b (l.drop a)
  rw [List.drop_drop] at h
  exact h

/-- Contribution of the loop iterations from `k` on to the re-joined text:
with every window non-blank, the chunks they emit, each deprived of its first
`overlap` characters, concatenate to the text from offset
`k * step + overlap` on. -/
theorem chunkLoop_dropJoin (content : List Char) (chunkSize overlap : Nat)
    (hOW : overlap < chunkSize)
    (hnb : ∀ k, k * (chunkSize - overlap) < content.length →
      (jsTrim (windowAt content chunkSize overlap k)).isEmpty = false) :
    ∀ fuel k l, content.length - k * (chunkSize - overlap) ≤ fuel →
      chunkLoop content chunkSize overlap fuel (k * (chunkSize - overlap)) = some l →
      dropJoin overlap l = content.drop (k * (chunkSize - overlap) + overlap) := by
  have hstep : 0 < chunkSize - overlap := by omega
  simp only [windowAt] at hnb
  intro fuel
  induction fuel with
  | zero =>
    intro k l hk hl
    have hge : content.length ≤ k * (chunkSize - overlap) := by omega
    rw [chunkLoop_stop _ _ _ _ _ (by omega)] at hl
    simp only [Option.some.injEq] at hl
    subst hl
    rw [List.drop_eq_nil_of_le (by omega)]
    rfl
  | succ f ih =>
    intro k l hk hl
    by_cases hik : k * (chunkSize - overlap) < content.length
    · rw [chunkLoop_succ _ _ _ _ _ hik] at hl
      cases hrec : chunkLoop content chunkSize overlap f
          (k * (chunkSize - overlap) + (chunkSize - overlap)) with
      | none => rw [hrec] at hl; simp at hl
      | some ltail =>
        rw [hrec, Option.map_some'] at hl
        rw [hnb k hik] at hl
        simp only [Bool.false_eq_true, if_false, Option.some.injEq] at hl
        subst hl
        have harg : k * (chunkSize - overlap) + (chunkSize - overlap)
            = (k + 1) * (chunkSize - overlap) := by ring
        rw [harg] at hrec
        have hrest := ih (k + 1) ltail (by
            have h3 : (k + 1) * (chunkSize - overlap)
                = k * (chunkSize - overlap) + (chunkSize - overlap) := by ring
            omega) hrec
        rw [dropJoin_cons, hrest]
        have hidx : (k + 1) * (chunkSize - overlap) + overlap
            = (k * (chunkSize - overlap) + overlap) + (chunkSize - overlap) := by ring
        rw [hidx]
        show ((content.drop (k * (chunkSize - overlap))).take chunkSize).drop overlap ++ _ = _
        rw [List.drop_take, List.drop_drop]
        exact take_append_drop_offset content _ _
    · rw [chunkLoop_stop _ _ _ _ _ hik] at hl
      simp only [Option.some.injEq] at hl
      subst hl
      have hge : content.length ≤ k * (chunkSize - overlap) := by omega
      rw [List.drop_eq_nil_of_le (by omega)]
      rfl

/-- C2 (amended): for every text, window size and overlap with
`0 ≤ overlap < windowSize`, provided no window of the text is whitespace-only
(whitespace-only windows are silently discarded by the loop), concatenating
the produced chunks in `chunkIndex` order after dropping the first `overlap`
characters of every chunk except the first reconstructs the original text
exactly. -/
theorem chunkDocument_lossless (content : List Char) (chunkSize overlap : Nat)
    (hOW : overlap < chunkSize)
    (hnb : ∀ k, k * (chunkSize - overlap) < content.length →
      (jsTrim (windowAt content chunkSize overlap k)).isEmpty = false) :
    (chunkDocument content chunkSize overlap).map (rejoinChunks overlap) = some content := by
  have hstep : 0 < chunkSize - overlap := by omega
  by_cases hlen : content.length = 0
  · have hnil : content = [] := List.length_eq_zero.mp hlen
    subst hnil
    rfl
  · have hpos : 0 < content.length := Nat.pos_of_ne_zero hlen
    have hone : 1 * (chunkSize - overlap) = chunkSize - overlap := by ring
    have h1 := chunkLoop_eq_windows content chunkSize overlap hOW hnb
        (content.length - 1) 1 (by omega)
    have h2 := chunkLoop_dropJoin content chunkSize overlap hOW hnb
        (content.length - 1) 1 _ (by omega) h1
    simp only [chunkDocument]
    have hfuel : content.length = (content.length - 1) + 1 := by omega
    rw [hfuel, chunkLoop_succ _ _ _ _ _ (by omega)]
    have h0 : 0 + (chunkSize - overlap) = 1 * (chunkSize - overlap) := by ring
    rw [h0, h1]
    have hnb0 := hnb 0 (by simpa using hpos)
    simp only [windowAt, Nat.zero_mul, List.drop_zero] at hnb0
    simp only [Option.map_some', List.drop_zero, hnb0, Bool.false_eq_true, if_false]
    simp only [rejoinChunks, Option.some.injEq]
    have hco : 1 * (chunkSize - overlap) + overlap = chunkSize := by omega
    rw [hco] at h2
    rw [h2]
    exact List.take_append_drop _ _

/-- C2 counterexample: the round trip fails on a text with a whitespace-only
window: with `windowSize = 1`, `overlap = 0` (a valid configuration,
`0 ≤ 0 < 1`), the single-space text produces no chunks at all — the blank
window is discarded — so re-joining yields the empty string, not the text. -/
theorem chunkDocument_lossless_counterexample :
    (0 : Nat) < 1 ∧
    (chunkDocument " ".toList 1 0).map (rejoinChunks 0) = some [] ∧
    (chunkDocument " ".toList 1 0).map (rejoinChunks 0) ≠ some " ".toList := by
  refine ⟨by decide, by decide, by decide⟩

/-- C2 witness: the text `"abc"` with window 2 and overlap 1 re-joins to
itself. -/
theorem chunkDocument_lossless_witness :
    (chunkDocument "abc".toList 2 1).map (rejoinChunks 1) = some "abc".toList :=
  chunkDocument_lossless "abc".toList 2 1 (by decide)
    (fun k hk => by
      have h3 : ("abc".toList).length = 3 := by decide
      rw [h3] at hk
      have hk3 : k < 3 := by omega
      interval_cases k <;> decide)

/-- Lookup after an update at the same key returns the new value. -/
theorem mapGet_mapSet_self {α : Type} (m : List (Nat × α)) (k : Nat) (v : α) :
    mapGet (mapSet m k v) k = some v := by
  induction m with
  | nil => simp [mapSet, mapGet]
  | cons p rest ih =>
    obtain ⟨k', v'⟩ := p
    by_cases h : k' = k
    · subst h; simp [mapSet, mapGet]
    · simp [mapSet, mapGet, h, ih]

/-- Lookup after an update at a different key is unchanged. -/
theorem mapGet_mapSet_ne {α : Type} (m : List (Nat × α)) (k d : Nat) (v : α)
    (h : d ≠ k) : mapGet (mapSet m k v) d = mapGet m d := by
  have h' : ¬ k = d := fun hh => h hh.symm
  induction m with
  | nil => simp [mapSet, mapGet, h']
  | cons p rest ih =>
    obtain ⟨k', v'⟩ := p
    by_cases hk : k' = k
    · subst hk
      simp [mapSet, mapGet, h']
    · simp [mapSet, mapGet, hk, ih]

/-- Creating one chunk appends it, with a `null` embedding and the fresh id,
to its own document's array. -/
theorem bucket_create_self (s : MemState) (ic : InsertDocumentChunk) :
    ((memCreateDocumentChunk s ic).2).bucket ic.documentId =
      s.bucket ic.documentId ++
        [⟨s.nextId, ic.documentId, ic.content, ic.chunkIndex, none⟩] := by
  simp [memCreateDocumentChunk, MemState.bucket, mapGet_mapSet_self]

/-- Creating one chunk leaves every other document's array unchanged. -/
theorem bucket_create_ne (s : MemState) (ic : InsertDocumentChunk) (d : Nat)
    (h : d ≠ ic.documentId) :
    ((memCreateDocumentChunk s ic).2).bucket d = s.bucket d := by
  simp [memCreateDocumentChunk, MemState.bucket, mapGet_mapSet_ne _ _ _ _ h]

/-- Effect of `createDocumentChunksWithEmbeddings` on one document's array in
the in-memory backend, up to the generated ids: the chunks of the batch that
belong to document `d` are appended, in order, each with no embedding. -/
theorem bucket_createMany (d : Nat) :
    ∀ (ics : List InsertDocumentChunk) (s : MemState),
      (((memCreateDocumentChunksWithEmbeddings s ics).2).bucket d).map
          DocumentChunk.record =
        (s.bucket d).map DocumentChunk.record ++
          (ics.filter (fun ic => ic.documentId = d)).map
            InsertDocumentChunk.withoutEmbedding := by
  intro ics
  induction ics with
  | nil => intro s; simp [memCreateDocumentChunksWithEmbeddings]
  | cons ic rest ih =>
    intro s
    simp only [memCreateDocumentChunksWithEmbeddings]
    rw [ih ((memCreateDocumentChunk s ic).2)]
    by_cases h : ic.documentId = d
    · subst h
      rw [bucket_create_self]
      simp [DocumentChunk.record, InsertDocumentChunk.withoutEmbedding,
            List.filter_cons]
    · rw [bucket_create_ne s ic d (fun hh => h hh.symm)]
      simp [List.filter_cons, h]

/-- Listing a document's chunks distributes over appending table rows, up to
permutation. -/
theorem dbGetDocumentChunks_append (t1 t2 : List ChunkRecord) (d : Nat) :
    (dbGetDocumentChunks (t1 ++ t2) d).Perm
      (dbGetDocumentChunks t1 d ++ dbGetDocumentChunks t2 d) := by
  unfold dbGetDocumentChunks
  refine (List.perm_insertionSort _ _).trans ?_
  rw [List.filter_append]
  exact ((List.perm_insertionSort recordIndexLe _).symm).append
    ((List.perm_insertionSort recordIndexLe _).symm)

/-- Listing a document's chunks out of the freshly inserted no-embedding rows
selects exactly the batch's chunks for that document, up to permutation. -/
theorem dbGetDocumentChunks_of_inserted (chunks : List InsertDocumentChunk) (d : Nat) :
    (dbGetDocumentChunks (chunks.map InsertDocumentChunk.withoutEmbedding) d).Perm
      ((chunks.filter (fun c => c.documentId = d)).map
        InsertDocumentChunk.withoutEmbedding) := by
  unfold dbGetDocumentChunks
  refine (List.perm_insertionSort _ _).trans ?_
  rw [List.filter_map]
  exact List.Perm.of_eq rfl

/-- C4: if the batch embedding call fails for an entire ingestion, both
backends still persist every input chunk with no embedding, and a subsequent
`getDocumentChunks` for a document returns its previous chunks plus every
batch chunk belonging to it, each with `embedding = none` (up to the ordering
applied by `getDocumentChunks`; ids are ignored on the in-memory side, where
no embedding is ever attached). -/
theorem createChunks_embedding_failure_persists
    (embedBatch : List (List Char) → RequestOutcome (List EmbeddingResult))
    (table : List ChunkRecord) (chunks : List InsertDocumentChunk)
    (d : Nat) (e : List Char)
    (hfail : embedBatch (chunks.map (fun c => c.content)) = .err e)
    (s : MemState) (ics : List InsertDocumentChunk) :
    (dbGetDocumentChunks
        (dbCreateDocumentChunksWithEmbeddings embedBatch table chunks) d).Perm
      (dbGetDocumentChunks table d ++
        (chunks.filter (fun c => c.documentId = d)).map
          InsertDocumentChunk.withoutEmbedding) ∧
    ((memGetDocumentChunks ((memCreateDocumentChunksWithEmbeddings s ics).2) d).map
        DocumentChunk.record).Perm
      ((memGetDocumentChunks s d).map DocumentChunk.record ++
        (ics.filter (fun ic => ic.documentId = d)).map
          InsertDocumentChunk.withoutEmbedding) := by
  constructor
  · by_cases hz : chunks.length = 0
    · have hnil : chunks = [] := List.length_eq_zero.mp hz
      subst hnil
      simp [dbCreateDocumentChunksWithEmbeddings]
    · rw [dbCreateDocumentChunksWithEmbeddings, if_neg hz, hfail]
      refine (dbGetDocumentChunks_append table _ d).trans ?_
      exact (dbGetDocumentChunks_of_inserted chunks d).append_left
        (dbGetDocumentChunks table d)
  · have p1 : ((memGetDocumentChunks
          ((memCreateDocumentChunksWithEmbeddings s ics).2) d).map
            DocumentChunk.record).Perm
        ((((memCreateDocumentChunksWithEmbeddings s ics).2).bucket d).map
          DocumentChunk.record) :=
      (List.perm_insertionSort chunkIndexLe _).map _
    have p2 : ((memGetDocumentChunks s d).map DocumentChunk.record).Perm
        ((s.bucket d).map DocumentChunk.record) :=
      (List.perm_insertionSort chunkIndexLe _).map _
    rw [bucket_createMany d ics s] at p1
    exact p1.trans ((p2.symm).append_right _)

/-- C4 witness: one chunk for document 7 ingested while the batch embedding
service is down, against the empty table and the empty in-memory store. -/
theorem createChunks_embedding_failure_persists_witness :
    (dbGetDocumentChunks
        (dbCreateDocumentChunksWithEmbeddings
          (fun _ => .err "service unavailable".toList) [] [⟨7, "ab".toList, 0⟩]) 7).Perm
      (dbGetDocumentChunks [] 7 ++
        (([⟨7, "ab".toList, 0⟩] : List InsertDocumentChunk).filter
          (fun c => c.documentId = 7)).map InsertDocumentChunk.withoutEmbedding) ∧
    ((memGetDocumentChunks
        ((memCreateDocumentChunksWithEmbeddings ⟨0, [], []⟩ [⟨7, "ab".toList, 0⟩]).2) 7).map
        DocumentChunk.record).Perm
      ((memGetDocumentChunks ⟨0, [], []⟩ 7).map DocumentChunk.record ++
        (([⟨7, "ab".toList, 0⟩] : List InsertDocumentChunk).filter
          (fun ic => ic.documentId = 7)).map InsertDocumentChunk.withoutEmbedding) :=
  createChunks_embedding_failure_persists
    (fun _ => .err "service unavailable".toList) [] [⟨7, "ab".toList, 0⟩] 7
    "service unavailable".toList rfl ⟨0, [], []⟩ [⟨7, "ab".toList, 0⟩]

/-- Result count of the in-memory search loop: one result per chunk given. -/
theorem memSearchGo_length (s : MemState) (rng : Nat → Rat) :
    ∀ (l : List DocumentChunk) (j : Nat), (memSearchGo s rng j l).length = l.length := by
  intro l
  induction l with
  | nil => intro j; rfl
  | cons c rest ih => intro j; simp [memSearchGo, ih]

/-- C5 (amended): every vector search returns at most `limit` results on both
backends, and the durable backend's results are sorted by non-increasing
similarity (it orders by ascending vector distance and reports
`1 - distance`), with no `chunkIndex` tie-break; the in-memory backend
attaches random scores to the first `limit` stored chunks and imposes no
similarity ordering (see the counterexample). -/
theorem vectorSearch_bounded_and_db_sorted :
    (∀ (s : MemState) (q : List Rat) (limit : Nat) (rng : Nat → Rat),
      (memSearchDocumentChunksByVector s q limit rng).length ≤ limit) ∧
    (∀ (dist : List Rat → List Rat → Rat) (table : List ChunkRecord)
      (docs : List (Nat × StoredDocument)) (q : List Rat) (limit : Nat),
      (dbSearchDocumentChunksByVector dist table docs q limit).length ≤ limit ∧
      (dbSearchDocumentChunksByVector dist table docs q limit).Pairwise
        (fun a b => b.similarity ≤ a.similarity)) := by
  constructor
  · intro s q limit rng
    rw [memSearchDocumentChunksByVector, memSearchGo_length, List.length_take]
    exact min_le_left _ _
  · intro dist table docs q limit
    haveI : IsTotal JoinedRow (distLe dist q) := ⟨fun a b => le_total _ _⟩
    haveI : IsTrans JoinedRow (distLe dist q) := ⟨fun a b c h1 h2 => le_trans h1 h2⟩
    constructor
    · simp only [dbSearchDocumentChunksByVector, List.length_map, List.length_take]
      exact min_le_left _ _
    · simp only [dbSearchDocumentChunksByVector]
      have hsorted := List.sorted_insertionSort (distLe dist q)
        (table.filterMap (fun r =>
          match r.embedding with
          | none => none
          | some e => (mapGet docs r.documentId).map (fun d => ⟨r, e, d⟩)))
      have htake := hsorted.sublist (List.take_sublist limit _)
      exact htake.map _ (fun a b hab => sub_le_sub_left hab 1)

/-- C5 counterexample: on the concrete in-memory store with two chunks and a
random stream drawing 0 then 4/5, the returned similarities are 1/2 followed
by 9/10 — not non-increasing, and not tie-broken by `chunkIndex`. -/
theorem memSearch_not_sorted_counterexample :
    ¬ (memSearchDocumentChunksByVector cexMemState [] 5 cexRng).Pairwise
        (fun a b => b.similarity ≤ a.similarity) := by
  intro h
  simp [memSearchDocumentChunksByVector, memAllChunks, cexMemState, memSearchGo,
        cexRng, cexChunkA, cexChunkB, cexDoc, mapGet] at h
  norm_num at h

/-- Similarity attached by the in-memory search loop to its `j`-th result:
the `j`-th random draw, rescaled — independent of chunk contents and of the
query. -/
theorem memSearchGo_get_similarity (s : MemState) (rng : Nat → Rat) :
    ∀ (l : List DocumentChunk) (j0 j : Nat) (h : j < (memSearchGo s rng j0 l).length),
      ((memSearchGo s rng j0 l).get ⟨j, h⟩).similarity = rng (j0 + j) * (1/2) + 1/2 := by
  intro l
  induction l with
  | nil => intro j0 j h; simp [memSearchGo] at h
  | cons c rest ih =>
    intro j0 j h
    cases j with
    | zero => simp [memSearchGo]
    | succ j' =>
      have hrw : ((memSearchGo s rng j0 (c :: rest)).get ⟨j' + 1, h⟩).similarity =
          ((memSearchGo s rng (j0 + 1) rest).get ⟨j', by
            have := h; simpa [memSearchGo] using this⟩).similarity := by
        simp [memSearchGo]
      rw [hrw, ih (j0 + 1) j' _]
      have hadd : j0 + 1 + j' = j0 + (j' + 1) := by omega
      rw [hadd]

/-- C7 (amended): the in-memory backend's `searchDocumentChunksByVector` does
not compute a deterministic lexical score — the similarity of the `j`-th
returned result equals `rng j * 0.5 + 0.5`, a pure function of the ambient
random draws, independent of the stored content and of the query; two runs
with equal draws coincide, and runs with different draws differ (see the
counterexample). -/
theorem memSearch_similarity_from_rng (s : MemState) (q : List Rat) (limit : Nat)
    (rng : Nat → Rat) (j : Nat)
    (h : j < (memSearchDocumentChunksByVector s q limit rng).length) :
    ((memSearchDocumentChunksByVector s q limit rng).get ⟨j, h⟩).similarity =
      rng j * (1/2) + 1/2 := by
  have hh := memSearchGo_get_similarity s rng ((memAllChunks s).take limit) 0 j
    (by simpa [memSearchDocumentChunksByVector] using h)
  simpa [memSearchDocumentChunksByVector] using hh

/-- C7 witness: on the concrete store, the first result of a search run with
the all-zero random stream carries similarity `0 * 0.5 + 0.5`. -/
theorem memSearch_similarity_from_rng_witness :
    ((memSearchDocumentChunksByVector cexMemState [] 5 cexRngA).get
        ⟨0, by decide⟩).similarity = cexRngA 0 * (1/2) + 1/2 :=
  memSearch_similarity_from_rng cexMemState [] 5 cexRngA 0 (by decide)

/-- C7 counterexample: two runs on the same store state with the same
arguments but different random draws return different result sequences — the
similarity scores differ — so the scores are not a deterministic function of
the store state and the arguments. -/
theorem memSearch_nondeterministic_counterexample :
    memSearchDocumentChunksByVector cexMemState [] 5 cexRngA ≠
      memSearchDocumentChunksByVector cexMemState [] 5 cexRngB := by
  intro h
  have h2 := congrArg (fun l => l.map MemSearchResult.similarity) h
  simp [memSearchDocumentChunksByVector, memAllChunks, cexMemState, memSearchGo,
        cexRngA, cexRngB, cexChunkA, cexChunkB, cexDoc, mapGet] at h2

/-- Chunk-and-document part of the in-memory search results: one entry per
chunk given to the loop, each paired with its document lookup — no dependence
on the random draws. -/
theorem memSearchGo_map_strip (s : MemState) (rng : Nat → Rat) :
    ∀ (l : List DocumentChunk) (j : Nat),
      (memSearchGo s rng j l).map (fun r => (r.chunk, r.document)) =
        l.map (fun c => (c, mapGet s.documents c.documentId)) := by
  intro l
  induction l with
  | nil => intro j; rfl
  | cons c rest ih => intro j; simp [memSearchGo, ih]

/-- C10: in the in-memory backend the set and order of returned chunks are
independent of the query embedding (and of the random draws): any two
searches with the same limit on the same store return the same chunks with
the same documents in the same order — the first `limit` stored chunks in
map-insertion order — differing at most in the attached similarity values. -/
theorem memSearch_query_independent (s : MemState) (q1 q2 : List Rat)
    (limit : Nat) (rng1 rng2 : Nat → Rat) :
    (memSearchDocumentChunksByVector s q1 limit rng1).map
        (fun r => (r.chunk, r.document)) =
      (memSearchDocumentChunksByVector s q2 limit rng2).map
        (fun r => (r.chunk, r.document)) ∧
    (memSearchDocumentChunksByVector s q1 limit rng1).map
        (fun r => (r.chunk, r.document)) =
      ((memAllChunks s).take limit).map
        (fun c => (c, mapGet s.documents c.documentId)) := by
  constructor
  · rw [memSearchDocumentChunksByVector, memSearchDocumentChunksByVector,
        memSearchGo_map_strip, memSearchGo_map_strip]
  · rw [memSearchDocumentChunksByVector, memSearchGo_map_strip]
